import Mathlib

/-!
Verification development for the kalshi-weather trading bot.

The definitions below are a shallow embedding of the Python sources:
  * `app/domain/opportunity.py` — condition parser and heuristic probability model;
  * `app/services/bot.py` — ticker resolution, refresh caches, opportunity engine.

Modelling conventions:
  * Python floats are modelled as rationals (`ℚ`); the constants involved are
    decimal literals and every bound proved here is enforced by explicit
    `max`/`min` clamps in the source, so the rational model is faithful.
  * Python `None` is modelled with `Option`; dict truthiness (`if not x:`) is
    modelled explicitly where the source relies on it (empty list / zero int
    / empty string are falsy).
  * `re` character classes `\s` and `\d` are modelled over their ASCII subsets,
    and `str.lower` as ASCII lowercasing; the keyword sets searched for are all
    ASCII, so this does not affect the classifications proved here.
-/

namespace KalshiWeather

/-- Python `\s` (ASCII subset): space, tab, newline, carriage return,
vertical tab, form feed. -/
def isPySpace (c : Char) : Bool :=
  c = ' ' || c = '\t' || c = '\n' || c = '\r' || c = '\x0b' || c = '\x0c'

/-- Numeric value of a decimal digit character. -/
def dval (c : Char) : Nat := c.toNat - 48

/-- Value of a nonempty run of decimal digit characters. -/
def natOfDigits (ds : List Char) : Nat :=
  ds.foldl (fun a c => a * 10 + dval c) 0

/-- ASCII lowercasing of a character list, modelling `str.lower()` on the
market titles (all searched keywords are ASCII). -/
def lowerStr (cs : List Char) : List Char := cs.map Char.toLower

/-- Does `cs` start with `needle`? -/
def listStartsWith : List Char → List Char → Bool
  | _, [] => true
  | [], _ :: _ => false
  | c :: cs, d :: ds => c = d && listStartsWith cs ds

/-- Substring containment, modelling Python `needle in hay`. -/
def containsSub : List Char → List Char → Bool
  | [], needle => needle.isEmpty
  | hay@(_ :: hs), needle => listStartsWith hay needle || containsSub hs needle

/-- Tail of the temperature regex `(-?\d+)\s*Â°?\s*F` (from
`opportunity.py` line 13, where the degree marker is the two characters
U+00C2 U+00B0 with `?` applying only to U+00B0): after the captured digits,
match `\s*`, then the literal character U+00C2 (case-insensitively, so also
U+00E2), then an optional U+00B0, then `\s*`, then `F` or `f`.  Returns the
remaining characters after the match, or `none`. -/
def degMatchTail (cs : List Char) : Option (List Char) :=
  match cs.dropWhile isPySpace with
  | c :: cs2 =>
    if c = 'Â' || c = 'â' then
      let cs3 := match cs2 with
        | d :: cs2' => if d = '°' then cs2' else cs2
        | [] => cs2
      match cs3.dropWhile isPySpace with
      | f :: rest => if f = 'F' || f = 'f' then some rest else none
      | [] => none
    else none
  | [] => none

/-- Attempt to match `(-?\d+)\s*Â°?\s*F` at the head of `cs`, returning the
captured signed integer and the rest of the input.  Greedy matching without
backtracking is equivalent here because digits, whitespace, U+00C2 and `F`
are pairwise disjoint character sets. -/
def tryMatchTemp (cs : List Char) : Option (Int × List Char) :=
  match cs with
  | '-' :: rest =>
    match rest.span Char.isDigit with
    | ([], _) => none
    | (ds, rest2) =>
      match degMatchTail rest2 with
      | some r => some (-(Int.ofNat (natOfDigits ds)), r)
      | none => none
  | _ =>
    match cs.span Char.isDigit with
    | ([], _) => none
    | (ds, rest2) =>
      match degMatchTail rest2 with
      | some r => some (Int.ofNat (natOfDigits ds), r)
      | none => none

/-- Left-to-right non-overlapping scan of `re.findall`; the fuel argument
(initially the input length) only bounds the recursion and never runs out,
since every step consumes at least one character. -/
def findTempsAux : Nat → List Char → List Int
  | 0, _ => []
  | _ + 1, [] => []
  | fuel + 1, c :: cs =>
    match tryMatchTemp (c :: cs) with
    | some (n, rest) => n :: findTempsAux fuel rest
    | none => findTempsAux fuel cs

/-- All signed integers captured by `re.findall(r"(-?\d+)\s*Â°?\s*F", title, re.I)`. -/
def findTemps (cs : List Char) : List Int := findTempsAux cs.length cs

/-- Parsed market condition (`opportunity.py`): the dict
`{"type": ..., "threshold"/"low"/"high"/"temps": ...}` as a tagged variant;
threshold fields are `Option` because the source stores `None` when no
temperatures were extracted. -/
inductive Condition where
  | gte (threshold : Option Int)
  | lte (threshold : Option Int)
  | range (low high : Option Int)
  | unknown (temps : List Int)
deriving DecidableEq, Repr

/-- Keywords triggering the `gte` classification (`opportunity.py` line 18). -/
def gteKeywords : List String :=
  ["at least", "or higher", "or above", "greater than", "above", ">="]

/-- Keywords triggering the `lte` classification (`opportunity.py` line 20). -/
def lteKeywords : List String :=
  ["at most", "or lower", "or below", "less than", "below", "<="]

/-- Embedding of `parse_market_condition` (`opportunity.py` lines 9-24). -/
def parse_market_condition (title : String) : Option Condition :=
  if title.data = [] then none
  else
    let temps := findTemps title.data
    let title_l := lowerStr title.data
    if 2 ≤ temps.length ∧
        (containsSub title_l "between".data = true ∨ containsSub title_l " to ".data = true) then
      some (.range (temps.take 2).min? (temps.take 2).max?)
    else if gteKeywords.any (fun k => containsSub title_l k.data) then
      some (.gte temps.head?)
    else if lteKeywords.any (fun k => containsSub title_l k.data) then
      some (.lte temps.head?)
    else if temps ≠ [] then some (.unknown temps)
    else none

/-- Embedding of `estimate_prob_reach_threshold` (`opportunity.py` lines 27-43). -/
def estimate_prob_reach_threshold (diff : Int) (hour : Int) : ℚ :=
  if diff ≤ 0 then 0.95
  else
    let diff_factor : ℚ := max 0.05 (1 - (diff : ℚ) / 10)
    let time_factor : ℚ :=
      if hour < 10 then 1.1
      else if hour < 14 then 1.15
      else if hour < 17 then 0.95
      else if hour < 20 then 0.7
      else 0.4
    max 0.05 (min 0.95 (diff_factor * time_factor))

/-- Embedding of `estimate_prob_no_new_high` (`opportunity.py` lines 46-60). -/
def estimate_prob_no_new_high (hour : Int) : ℚ :=
  if hour ≥ 22 then 0.98
  else if hour ≥ 20 then 0.95
  else if hour ≥ 18 then 0.9
  else if hour ≥ 16 then 0.8
  else if hour ≥ 14 then 0.7
  else if hour ≥ 12 then 0.6
  else 0.4

/-- Embedding of `estimate_prob_yes` (`opportunity.py` lines 63-100);
`condition = none` models Python `None` (the parser never returns an empty
dict, so dict truthiness coincides with non-`None`), and `high_today = none`
models `high_today is None`. -/
def estimate_prob_yes (condition : Option Condition) (high_today : Option Int)
    (hour : Int) : Option ℚ :=
  match condition, high_today with
  | none, _ => none
  | _, none => none
  | some c, some h =>
    match c with
    | .gte none => none
    | .gte (some threshold) =>
      if h ≥ threshold then some 0.99
      else some (estimate_prob_reach_threshold (threshold - h) hour)
    | .lte none => none
    | .lte (some threshold) =>
      if h > threshold then some 0.01
      else if h = threshold then some (estimate_prob_no_new_high hour)
      else some (max 0.01 (1 - estimate_prob_reach_threshold (threshold - h) hour))
    | .range (some low) (some high) =>
      if h > high then some 0.01
      else if h < low then
        some (max 0.01 (min 0.99
          (estimate_prob_reach_threshold (low - h) hour * estimate_prob_no_new_high hour)))
      else some (max 0.01 (min 0.99 (estimate_prob_no_new_high hour)))
    | .range _ _ => none
    | .unknown _ => none

/-- Truthiness of an optional integer (`if not current_temp:` in Python is
true for both `None` and `0`). -/
def truthyOptInt : Option Int → Bool
  | none => false
  | some v => v ≠ 0

/-- Truthiness of an optional string (`None` and `""` are falsy). -/
def truthyOptStr : Option String → Bool
  | none => false
  | some s => s ≠ ""

/-- Python `round` (banker's rounding, half to even) on a rational. -/
def roundHalfEven (q : ℚ) : Int :=
  if q - ⌊q⌋ < 1 / 2 then ⌊q⌋
  else if 1 / 2 < q - ⌊q⌋ then ⌊q⌋ + 1
  else if ⌊q⌋ % 2 = 0 then ⌊q⌋ else ⌊q⌋ + 1

/-- Python `round(q, 2)`. -/
def round2 (q : ℚ) : ℚ := (roundHalfEven (q * 100) : ℚ) / 100

/-- Uppercase an ASCII string (`str.upper`). -/
def upperStr (s : String) : String := ⟨s.data.map Char.toUpper⟩

/-- String rendering of an optional price in a reasoning-trace entry (the
exact numeric formatting of the Python f-strings is abstracted to
`toString`; only the presence and order of trace entries matter here). -/
def optPriceStr : Option ℚ → String
  | none => "None"
  | some q => toString q

/-- Order-book entry as consumed by `_bid_price` (`bot.py` lines 412-417):
a dict with an optional numeric `price`, a list/tuple of numbers, or some
other shape.  Non-numeric prices are not modelled: feeding one to the EV
arithmetic would raise in Python, so no decision is returned on that path. -/
inductive Bid where
  | dict (price : Option ℚ)
  | arr (elems : List ℚ)
  | other
deriving DecidableEq, Repr

/-- Embedding of `_bid_price` (`bot.py` lines 412-417); an empty list/tuple
is falsy and yields `None`. -/
def bidPrice : Bid → Option ℚ
  | .dict p => p
  | .arr [] => none
  | .arr (x :: _) => some x
  | .other => none

/-- Weather reading fields read by `analyze_opportunity`. -/
structure WeatherData where
  current_temp : Option Int
  high_today : Option Int
deriving DecidableEq, Repr

/-- Fields of `market_data["market"]` read by `analyze_opportunity`. -/
structure MarketInfo where
  title : Option String
  last_price : Option ℚ
deriving DecidableEq, Repr

/-- Market-data payload; `market = none` models a missing `"market"` key
(the `.get('market', {})` default). -/
structure MarketData where
  market : Option MarketInfo
deriving DecidableEq, Repr

/-- Order book body: `book.get('yes'/'no', []) or []` turns both a missing
key and `None` into `[]`. -/
structure Book where
  yes : Option (List Bid)
  no : Option (List Bid)
deriving DecidableEq, Repr

/-- Orderbook response; `orderbook = none` models a missing `"orderbook"`
key (the `.get('orderbook', {})` default). -/
structure OrderBookResp where
  orderbook : Option Book
deriving DecidableEq, Repr

/-- Emitted order (`analysis['order']`). -/
structure Order where
  side : String
  price : Int
  count : Int
deriving DecidableEq, Repr

/-- Result of `analyze_opportunity` (the `timestamp` field, a wall-clock
string never read by the logic, is omitted). -/
structure Analysis where
  has_opportunity : Bool
  confidence : ℚ
  recommendation : Option String
  reasoning : List String
  order : Option Order
deriving DecidableEq, Repr

/-- Bot parameters consulted by `analyze_opportunity`. -/
structure BotConfig where
  max_order_size : Int
  max_position : Int
  min_edge_cents : Int
  fee_cents : ℚ
deriving DecidableEq, Repr

/-- Embedding of `analyze_opportunity` (`bot.py` lines 365-507).  The call
`datetime.now().hour` is passed in as `now_hour`, and the caller-supplied
collaborator payloads are explicit arguments. -/
def analyze_opportunity (cfg : BotConfig) (weather_data : WeatherData)
    (market_data : Option MarketData) (orderbook : Option OrderBookResp)
    (now_hour : Int) (current_exposure : Int) : Analysis :=
  let base : Analysis :=
    { has_opportunity := false, confidence := 0, recommendation := none,
      reasoning := [], order := none }
  if ¬ (truthyOptInt weather_data.current_temp = true ∧
        truthyOptInt weather_data.high_today = true) then
    { base with reasoning := ["Insufficient weather data"] }
  else
    let current_temp := weather_data.current_temp.getD 0
    let high_today := weather_data.high_today.getD 0
    let r1 : List String :=
      ["Current temp: " ++ toString current_temp ++ "°F",
       "Today's high so far: " ++ toString high_today ++ "°F"]
    let book : Option Book := match orderbook with
      | some ob => ob.orderbook
      | none => none
    let yes_bids : List Bid := (book.bind Book.yes).getD []
    let no_bids : List Bid := (book.bind Book.no).getD []
    let market_info : Option MarketInfo := match market_data with
      | some md => md.market
      | none => none
    let title : Option String := market_info.bind MarketInfo.title
    let r2 := r1 ++ (if truthyOptStr title = true then
      ["Market title: " ++ title.getD ""] else [])
    let r3 := r2 ++
      (match yes_bids with
        | [] => []
        | b :: _ => ["Best YES bid: " ++ optPriceStr (bidPrice b) ++ "¢"]) ++
      (match no_bids with
        | [] => []
        | b :: _ => ["Best NO bid: " ++ optPriceStr (bidPrice b) ++ "¢"])
    let condition := parse_market_condition (title.getD "")
    if (match condition with
        | none => true
        | some (.unknown _) => true
        | some _ => false) = true then
      { base with reasoning := r3 ++ ["Market condition not parsed; skipping EV model"] }
    else
      match estimate_prob_yes condition (some high_today) now_hour with
      | none =>
        { base with reasoning := r3 ++ ["Probability model could not estimate outcome"] }
      | some prob_yes =>
        let r4 := r3 ++ ["Heuristic P(YES): " ++ toString prob_yes]
        let yes_price0 : Option ℚ := match yes_bids with
          | [] => none
          | b :: _ => bidPrice b
        let no_price0 : Option ℚ := match no_bids with
          | [] => none
          | b :: _ => bidPrice b
        let yes_price : Option ℚ := match yes_price0 with
          | some p => some p
          | none => market_info.bind MarketInfo.last_price
        let no_price : Option ℚ := match no_price0 with
          | some p => some p
          | none => yes_price.map (fun yp => 100 - yp)
        if yes_price = none ∧ no_price = none then
          { base with reasoning := r4 ++ ["No usable price data; skipping EV model"] }
        else
          let ev_yes : Option ℚ := yes_price.map
            (fun pr => prob_yes * 100 - pr - cfg.fee_cents)
          let ev_no : Option ℚ := no_price.map
            (fun pr => (1 - prob_yes) * 100 - pr - cfg.fee_cents)
          let r5 := r4 ++
            [match ev_yes with
              | some e => "EV YES: " ++ toString e ++ "¢"
              | none => "EV YES: N/A"] ++
            [match ev_no with
              | some e => "EV NO: " ++ toString e ++ "¢"
              | none => "EV NO: N/A"]
          let best1 : Option (String × ℚ × Option ℚ) := match ev_yes with
            | some e => some ("yes", e, yes_price)
            | none => none
          let best : Option (String × ℚ × Option ℚ) := match ev_no, best1 with
            | some e, none => some ("no", e, no_price)
            | some e, some b => if e > b.2.1 then some ("no", e, no_price) else some b
            | none, b => b
          match best with
          | none =>
            { base with reasoning := r5 ++
              ["No edge >= " ++ toString cfg.min_edge_cents ++ "¢; skipping trade"] }
          | some (best_side, best_ev, best_price_opt) =>
            if best_ev < (cfg.min_edge_cents : ℚ) then
              { base with reasoning := r5 ++
                ["No edge >= " ++ toString cfg.min_edge_cents ++ "¢; skipping trade"] }
            else
              match best_price_opt with
              | none =>
                { base with reasoning := r5 ++ ["No limit price available; skipping trade"] }
              | some best_price =>
                let remaining_capacity := max 0 (cfg.max_position - current_exposure)
                let order_size := min cfg.max_order_size remaining_capacity
                if order_size ≤ 0 then
                  { base with reasoning := r5 ++ ["Position limit reached; skipping trade"] }
                else
                  { has_opportunity := true,
                    confidence := round2 best_ev,
                    recommendation := some ("Buy " ++ upperStr best_side ++
                      " (edge " ++ toString best_ev ++ "¢)"),
                    reasoning := r5,
                    order := some
                      { side := best_side,
                        price := max 1 (min 99 (roundHalfEven best_price)),
                        count := order_size } }

/-- State of one refresh-cache instance holding a list value
(`_cached_event_markets` / `_last_event_markets_ts`, and the orderbook
analogue); `time.time()` instants are modelled as integers. -/
structure CacheState (α : Type) where
  cached : List α
  lastTs : Int
deriving DecidableEq, Repr

/-- Embedding of `get_event_markets_cached` (`bot.py` lines 331-337), one
step of the cache: `fetchResult` is the value `get_event_markets()` would
return if invoked, and the returned flag records whether it was invoked.
The guard tests truthiness of the cached list, so an empty cached value is
treated like an absent one. -/
def get_event_markets_cached (interval : Int) (st : CacheState α) (now : Int)
    (fetchResult : List α) : List α × CacheState α × Bool :=
  if st.cached.isEmpty = false ∧ now - st.lastTs < interval then (st.cached, st, false)
  else (fetchResult, ⟨fetchResult, now⟩, true)

/-- Forecast dict stored by `get_open_meteo_cached`; the `spread` key is
present only when both model highs are. -/
structure OMForecast where
  gfs_high : Option ℚ
  ecmwf_high : Option ℚ
  spread : Option ℚ
deriving DecidableEq, Repr

/-- State of the Open-Meteo refresh cache; `cached = none` models the
initial falsy `{}` (every stored dict has keys, hence is truthy). -/
structure OMState where
  cached : Option OMForecast
  lastTs : Int
deriving DecidableEq, Repr

/-- Embedding of `get_open_meteo_cached` (`bot.py` lines 347-363); `gfs`
and `ecmwf` are the values `get_daily_highs` would return if invoked. -/
def get_open_meteo_cached (enabled : Bool) (interval : Int) (st : OMState)
    (now : Int) (gfs ecmwf : Option ℚ) : Option OMForecast × OMState × Bool :=
  if ¬ enabled then (none, st, false)
  else if st.cached.isSome ∧ now - st.lastTs < interval then (st.cached, st, false)
  else
    let fetched : OMForecast :=
      { gfs_high := gfs, ecmwf_high := ecmwf,
        spread := match gfs, ecmwf with
          | some g, some e => some |g - e|
          | _, _ => none }
    (some fetched, ⟨some fetched, now⟩, true)

/-- Calendar date, modelling the `datetime.now()` date (month in 1..12,
day in 1..31 as guaranteed by `datetime`). -/
structure PyDate where
  year : Nat
  month : Nat
  day : Nat
deriving DecidableEq, Repr

/-- Two zero-padded decimal digits (`%d`, `%y`). -/
def pad2 (n : Nat) : List Char := [Nat.digitChar (n / 10 % 10), Nat.digitChar (n % 10)]

/-- Four zero-padded decimal digits (`%Y` for years below 10000). -/
def pad4 (n : Nat) : List Char :=
  [Nat.digitChar (n / 1000 % 10), Nat.digitChar (n / 100 % 10),
   Nat.digitChar (n / 10 % 10), Nat.digitChar (n % 10)]

/-- Upper-cased `%b` month abbreviation (C locale). -/
def monthAbbrevUpper : Nat → String
  | 1 => "JAN"
  | 2 => "FEB"
  | 3 => "MAR"
  | 4 => "APR"
  | 5 => "MAY"
  | 6 => "JUN"
  | 7 => "JUL"
  | 8 => "AUG"
  | 9 => "SEP"
  | 10 => "OCT"
  | 11 => "NOV"
  | 12 => "DEC"
  | _ => ""

/-- The date string `today.strftime("%d%b%y").upper()` (`bot.py` line 151). -/
def strftimeDdMmmYy (d : PyDate) : String :=
  ⟨pad2 d.day⟩ ++ monthAbbrevUpper d.month ++ ⟨pad2 (d.year % 100)⟩

/-- Embedding of `get_todays_market_ticker` (`bot.py` lines 144-153).  Note
that line 152 hardcodes the `KXHIGHMIA` prefix in the f-string; the
configured `series_ticker` is not consulted. -/
def get_todays_market_ticker (today : PyDate) : String :=
  "KXHIGHMIA-" ++ strftimeDdMmmYy today

/-- Modelled from the spec: section 4.3 step 2 says the canonical today
ticker is `{series}-{DDMmmYY}` built from the configured series.  This
definition follows the spec's words; it is compared against
`get_todays_market_ticker`, which is what the code computes. -/
def canonicalTickerSpec (series : String) (today : PyDate) : String :=
  series ++ "-" ++ strftimeDdMmmYy today

/-- Value found under a close-time key of a market dict: a Python int,
float, str, or any other shape. -/
inductive TVal where
  | int (n : Int)
  | float (q : ℚ)
  | str (s : String)
  | other
deriving DecidableEq, Repr

/-- Strip leading and trailing whitespace (what `int(str)` tolerates). -/
def stripPy (cs : List Char) : List Char :=
  ((cs.dropWhile isPySpace).reverse.dropWhile isPySpace).reverse

/-- Value of a nonempty all-digit character run, else `none`. -/
def parseDigits (cs : List Char) : Option Nat :=
  if cs.isEmpty then none
  else if cs.all Char.isDigit then some (natOfDigits cs) else none

/-- Embedding of Python `int(value)` on a string: optional surrounding
whitespace, optional sign, then decimal digits (underscore digit grouping
is not modelled). -/
def pyIntOfStr (s : String) : Option Int :=
  match stripPy s.data with
  | '-' :: ds => (parseDigits ds).map (fun n => -(n : Int))
  | '+' :: ds => (parseDigits ds).map (fun n => (n : Int))
  | ds => (parseDigits ds).map (fun n => (n : Int))

/-- Embedding of `value.replace("Z", "+00:00")` (`bot.py` line 190). -/
def replaceZ : List Char → List Char
  | [] => []
  | 'Z' :: cs => '+' :: '0' :: '0' :: ':' :: '0' :: '0' :: replaceZ cs
  | c :: cs => c :: replaceZ cs

/-- Gregorian leap-year test. -/
def isLeapYear (y : Nat) : Bool := y % 4 = 0 && (y % 100 ≠ 0 || y % 400 = 0)

/-- Number of days in a month of the proleptic Gregorian calendar. -/
def daysInMonth (y m : Nat) : Nat :=
  if m = 2 then (if isLeapYear y then 29 else 28)
  else if m = 4 ∨ m = 6 ∨ m = 9 ∨ m = 11 then 30
  else 31

/-- Days in the year strictly before month `m`. -/
def daysBeforeMonth (y m : Nat) : Nat :=
  let base := [0, 0, 31, 59, 90, 120, 151, 181, 212, 243, 273, 304, 334].getD m 0
  if 2 < m ∧ isLeapYear y = true then base + 1 else base

/-- Proleptic Gregorian ordinal (Python `date.toordinal`;
`date(1, 1, 1).toordinal() = 1`). -/
def toOrdinal (y m d : Nat) : Nat :=
  365 * (y - 1) + (y - 1) / 4 - (y - 1) / 100 + (y - 1) / 400 + daysBeforeMonth y m + d

/-- Epoch seconds of a civil datetime at the given UTC offset
(`datetime.timestamp()`; `date(1970, 1, 1)` has ordinal 719163). -/
def epochFromCivil (y mo d h mi s : Nat) (offsetSecs : Int) : Int :=
  ((toOrdinal y mo d : Int) - 719163) * 86400 +
    (h : Int) * 3600 + (mi : Int) * 60 + (s : Int) - offsetSecs

/-- Value of two decimal digit characters. -/
def digit2 (a b : Char) : Option Nat :=
  if a.isDigit && b.isDigit then some (dval a * 10 + dval b) else none

/-- Value of four decimal digit characters. -/
def digit4 (a b c d : Char) : Option Nat :=
  if a.isDigit && b.isDigit && c.isDigit && d.isDigit then
    some (((dval a * 10 + dval b) * 10 + dval c) * 10 + dval d)
  else none

/-- UTC offset suffix `±HH:MM` of an ISO-8601 string. -/
def isoOffset : List Char → Option Int
  | '+' :: a :: b :: ':' :: c :: d :: [] =>
    match digit2 a b, digit2 c d with
    | some oh, some om =>
      if oh < 24 ∧ om < 60 then some ((oh : Int) * 3600 + (om : Int) * 60) else none
    | _, _ => none
  | '-' :: a :: b :: ':' :: c :: d :: [] =>
    match digit2 a b, digit2 c d with
    | some oh, some om =>
      if oh < 24 ∧ om < 60 then some (-((oh : Int) * 3600 + (om : Int) * 60)) else none
    | _, _ => none
  | _ => none

/-- Embedding of
`int(datetime.fromisoformat(...).timestamp())` on the grammar
`YYYY-MM-DD[THH:MM:SS[±HH:MM]]` (the subset of `fromisoformat` exercised by
the exchange payloads; out-of-range fields raise `ValueError` in Python,
caught and turned into `None`).  A naive datetime's `timestamp()` depends
on the host timezone, modelled by `localOffset`. -/
def fromisoEpoch (localOffset : Int) (cs : List Char) : Option Int :=
  match cs with
  | y1 :: y2 :: y3 :: y4 :: '-' :: m1 :: m2 :: '-' :: d1 :: d2 :: rest =>
    match digit4 y1 y2 y3 y4, digit2 m1 m2, digit2 d1 d2 with
    | some y, some mo, some d =>
      if 1 ≤ y ∧ 1 ≤ mo ∧ mo ≤ 12 ∧ 1 ≤ d ∧ d ≤ daysInMonth y mo then
        match rest with
        | [] => some (epochFromCivil y mo d 0 0 0 localOffset)
        | 'T' :: h1 :: h2 :: ':' :: mi1 :: mi2 :: ':' :: s1 :: s2 :: rest2 =>
          match digit2 h1 h2, digit2 mi1 mi2, digit2 s1 s2 with
          | some h, some mi, some s =>
            if h < 24 ∧ mi < 60 ∧ s < 60 then
              match rest2 with
              | [] => some (epochFromCivil y mo d h mi s localOffset)
              | _ =>
                match isoOffset rest2 with
                | some off => some (epochFromCivil y mo d h mi s off)
                | none => none
            else none
          | _, _, _ => none
        | _ => none
      else none
    | _, _, _ => none
  | _ => none

/-- Embedding of `_parse_ts` (`bot.py` lines 182-193). -/
def parse_ts (localOffset : Int) : TVal → Option Int
  | .int n => some n
  | .float q => some (if 0 ≤ q then ⌊q⌋ else ⌈q⌉)
  | .str s =>
    match pyIntOfStr s with
    | some n => some n
    | none =>
      match fromisoEpoch localOffset (replaceZ s.data) with
      | some t => some t
      | none => none
  | .other => none

/-- A market entry's dict payload: its optional `ticker` and the remaining
key/value pairs consulted for close times. -/
structure MEntryD where
  ticker : Option String
  fields : List (String × TVal)
deriving DecidableEq, Repr

/-- Entry of an open-markets listing; `nondict` models any non-dict entry
(skipped by the filter, and raising `AttributeError` — caught by the
enclosing `except` — if it ends up as `markets[0]`). -/
inductive MEntry where
  | dict (m : MEntryD)
  | nondict
deriving DecidableEq, Repr

/-- Response of `get_markets` as consulted by `resolve_market_ticker`. -/
structure MarketsResp where
  markets : Option (List MEntry)
  data : Option (List MEntry)
deriving DecidableEq, Repr

/-- Entry of a series market listing: a dict (with optional `ticker`), a
plain string, or anything else. -/
inductive SEntry where
  | dict (ticker : Option String)
  | str (s : String)
  | other
deriving DecidableEq, Repr

/-- Response of `get_series` as consulted by `resolve_market_ticker`;
`series_markets` models the nested `series.get("series", {}).get("markets")`. -/
structure SeriesResp where
  markets : Option (List SEntry)
  series_markets : Option (List SEntry)
deriving DecidableEq, Repr

/-- Python `x or y or []` over two optional listing fields: the first
truthy (present and non-empty) list, else `[]`. -/
def orList : Option (List α) → Option (List α) → List α
  | some (x :: xs), _ => x :: xs
  | _, some (y :: ys) => y :: ys
  | _, _ => []

/-- Python `value or default` on an optional ticker string (both `None`
and `""` are falsy). -/
def orStr (o : Option String) (dflt : String) : String :=
  match o with
  | some s => if s = "" then dflt else s
  | none => dflt

/-- Lookup of a key in a dict's field list (`key in market` / `market.get(key)`). -/
def lookupField (fields : List (String × TVal)) (k : String) : Option TVal :=
  match fields.find? (fun kv => kv.1 = k) with
  | some kv => some kv.2
  | none => none

/-- Key precedence of `_close_ts` (`bot.py` line 196). -/
def closeKeys : List String := ["close_ts", "close_time", "close_timestamp", "close_ts_s"]

/-- Embedding of `_close_ts` (`bot.py` lines 195-199): the FIRST present
key wins, and its value is parsed even if a later key would have parsed. -/
def close_ts_of (localOffset : Int) (m : MEntryD) : Option Int :=
  match closeKeys.find? (fun k => (lookupField m.fields k).isSome) with
  | some k =>
    match lookupField m.fields k with
    | some v => parse_ts localOffset v
    | none => none
  | none => none

/-- The series-lookup step of `resolve_market_ticker` (`bot.py` lines
164-174): did the series listing contain today's ticker?  An exception
(`.error`) yields `false` and the resolver falls through. -/
def seriesHasTicker (res : Except Unit SeriesResp) (ticker : String) : Bool :=
  match res with
  | .error _ => false
  | .ok series =>
    (orList series.markets series.series_markets).any (fun e =>
      match e with
      | .dict t => t = some ticker
      | .str s => s = ticker
      | .other => false)

/-- The `upcoming` list of `resolve_market_ticker` (`bot.py` lines
201-207): entries that are dicts with a parseable close time at or after
`now`, paired with that close time. -/
def upcomingOf (localOffset now : Int) (markets : List MEntry) : List (Int × MEntryD) :=
  markets.filterMap (fun e =>
    match e with
    | .nondict => none
    | .dict m =>
      match close_ts_of localOffset m with
      | some c => if c ≥ now then some (c, m) else none
      | none => none)

/-- Stable insertion into a list sorted by close time (ties keep the
earlier element first, matching Python's stable `list.sort`). -/
def insertByTs (x : Int × MEntryD) : List (Int × MEntryD) → List (Int × MEntryD)
  | [] => [x]
  | y :: ys => if x.1 ≤ y.1 then x :: y :: ys else y :: insertByTs x ys

/-- Stable sort by close time, modelling `upcoming.sort(key=lambda item: item[0])`
(any two stable sorts on the same key agree elementwise). -/
def sortByTs (l : List (Int × MEntryD)) : List (Int × MEntryD) :=
  l.foldr insertByTs []

/-- Resolver configuration (`market_ticker_override` and `series_ticker`
attributes of the bot). -/
structure ResolverConfig where
  market_ticker_override : Option String
  series_ticker : String
deriving DecidableEq, Repr

/-- One-cycle behaviour of the two resolver collaborators: `.error` models
any exception raised inside the corresponding `try` block (transport
failures as well as shape errors from arbitrary payloads, all caught by
the blanket `except Exception`). -/
structure ResolverEnv where
  seriesResult : Except Unit SeriesResp
  marketsResult : Except Unit MarketsResp
  now_ts : Int
  localOffset : Int
deriving Repr

/-- Embedding of `resolve_market_ticker` (`bot.py` lines 155-216). -/
def resolve_market_ticker (cfg : ResolverConfig) (env : ResolverEnv) (today : PyDate) : String :=
  if truthyOptStr cfg.market_ticker_override = true then cfg.market_ticker_override.getD ""
  else
    let ticker := get_todays_market_ticker today
    if cfg.series_ticker = "" then ticker
    else if seriesHasTicker env.seriesResult ticker = true then ticker
    else
      match env.marketsResult with
      | .error _ => ticker
      | .ok resp =>
        match orList resp.markets resp.data with
        | [] => ticker
        | m0 :: ms =>
          match sortByTs (upcomingOf env.localOffset env.now_ts (m0 :: ms)) with
          | (_, m) :: _ => orStr m.ticker ticker
          | [] =>
            match m0 with
            | .dict m => orStr m.ticker ticker
            | .nondict => ticker

/-- All ticker strings occurring in an open-markets response (used to state
that resolution degrades to a best-guess ticker). -/
def respTickers (resp : MarketsResp) : List String :=
  (orList resp.markets resp.data).filterMap (fun e =>
    match e with
    | .dict m => m.ticker
    | .nondict => none)

/-- Rendering of a civil datetime in the ISO-8601 form `YYYY-MM-DDTHH:MM:SSZ`
(the close-time format of the exchange payloads), used to state that
close-time parsing accepts ISO-8601 strings. -/
def isoUTCString (y mo d h mi s : Nat) : String :=
  ⟨pad4 y ++ ('-' :: pad2 mo) ++ ('-' :: pad2 d) ++ ('T' :: pad2 h) ++
    (':' :: pad2 mi) ++ (':' :: pad2 s) ++ ['Z']⟩

/-- Fixture: bot parameters used by the concrete witnesses. -/
def exampleConfig : BotConfig := ⟨5, 20, 2, 0⟩

/-- Fixture: a weather reading with both fields present and nonzero. -/
def exampleWeather : WeatherData := ⟨some 80, some 76⟩

/-- Fixture: market data whose title parses (the degree marker carries the
U+00C2 byte the regex demands). -/
def exampleMarketData : Option MarketData :=
  some ⟨some ⟨some "Will the high be at least 75Â°F?", some 50⟩⟩

/-- Fixture: an order book with one YES bid at 50 cents. -/
def exampleOrderbook : Option OrderBookResp :=
  some ⟨some ⟨some [Bid.dict (some 50)], some []⟩⟩

/-- Fixture: an open market closing at epoch-second 200, with an integer
close time. -/
def exampleLateMarket : MEntryD := ⟨some "T-LATE", [("close_ts", TVal.int 200)]⟩

/-- Fixture: an open market closing at epoch-second 150, with an ISO-8601
close time. -/
def exampleEarlyMarket : MEntryD :=
  ⟨some "T-EARLY", [("close_time", TVal.str "1970-01-01T00:02:30Z")]⟩

/-- Fixture: an open-markets listing holding the two example markets. -/
def exampleMarketsResp : MarketsResp :=
  ⟨some [.dict exampleLateMarket, .dict exampleEarlyMarket], none⟩

/-- Fixture: a resolver cycle at now = 100 with a failing series lookup and
the example listing. -/
def exampleResolverEnv : ResolverEnv := ⟨.error (), .ok exampleMarketsResp, 100, 0⟩

end KalshiWeather

namespace KalshiWeather

/-! ## Theorems -/

/-- Each decimal digit character produced by `Nat.digitChar` on a reduced
argument is a digit, is not whitespace, and differs from the grammar's
punctuation characters. -/
theorem digitChar_facts (k : Nat) (hk : k < 10) :
    (Nat.digitChar k).isDigit = true ∧ dval (Nat.digitChar k) = k ∧
    isPySpace (Nat.digitChar k) = false ∧ Nat.digitChar k ≠ 'Z' ∧
    Nat.digitChar k ≠ '-' ∧ Nat.digitChar k ≠ '+' := by
  interval_cases k <;> decide

theorem digitChar_mod_isDigit (n : Nat) : (Nat.digitChar (n % 10)).isDigit = true :=
  (digitChar_facts _ (Nat.mod_lt _ (by norm_num))).1

theorem dval_digitChar_mod (n : Nat) : dval (Nat.digitChar (n % 10)) = n % 10 :=
  (digitChar_facts _ (Nat.mod_lt _ (by norm_num))).2.1

theorem digitChar_mod_not_space (n : Nat) : isPySpace (Nat.digitChar (n % 10)) = false :=
  (digitChar_facts _ (Nat.mod_lt _ (by norm_num))).2.2.1

theorem digitChar_mod_ne_Z (n : Nat) : Nat.digitChar (n % 10) ≠ 'Z' :=
  (digitChar_facts _ (Nat.mod_lt _ (by norm_num))).2.2.2.1

theorem digitChar_mod_ne_minus (n : Nat) : Nat.digitChar (n % 10) ≠ '-' :=
  (digitChar_facts _ (Nat.mod_lt _ (by norm_num))).2.2.2.2.1

/-- C1: the spec's two parser examples fail on the code.  The regex on
`opportunity.py` line 13 is `(-?\d+)\s*Â°?\s*F` where the `?` applies only
to U+00B0: the mojibake character U+00C2 is REQUIRED between the digits
and the (optional) degree sign.  A real title written with `°` (U+00B0)
alone therefore yields no extracted temperatures, so the "between" title
parses to `None` and the "at least" title parses to `gte` with a `None`
threshold — contradicting the repository's own tests
(`tests/test_opportunity.py`), which assert `range(72, 73)` and `gte(75)`
for exactly these titles. -/
theorem claim_C1_parser_eval :
    parse_market_condition "Will the high be between 72°F and 73°F?" = none ∧
    parse_market_condition "Will the high be at least 75°F?" = some (.gte none) ∧
    findTemps ("Will the high be between 72°F and 73°F?" : String).data = [] ∧
    findTemps ("Will the high be between 72Â°F and 73Â°F?" : String).data = [72, 73] := by
  refine ⟨by decide, by decide, by decide, by decide⟩

/-- C4: on a `gte` condition with a present threshold, `estimate_prob_yes`
returns exactly 0.99 when the observed high has reached the threshold and
the reach-threshold heuristic at `threshold - high_today` otherwise. -/
theorem claim_C4_gte_probability (t h hour : Int) :
    estimate_prob_yes (some (.gte (some t))) (some h) hour =
      some (if h ≥ t then (0.99 : ℚ) else estimate_prob_reach_threshold (t - h) hour) := by
  show (if h ≥ t then some (0.99 : ℚ)
    else some (estimate_prob_reach_threshold (t - h) hour)) = _
  split <;> rfl

/-- C5: `estimate_prob_reach_threshold` always lands in [0.05, 0.95] and
equals 0.95 whenever `diff ≤ 0`; `estimate_prob_no_new_high` always lands
in [0.4, 0.98]. -/
theorem claim_C5_probability_bounds (diff hour : Int) :
    ((0.05 : ℚ) ≤ estimate_prob_reach_threshold diff hour ∧
      estimate_prob_reach_threshold diff hour ≤ 0.95) ∧
    (diff ≤ 0 → estimate_prob_reach_threshold diff hour = 0.95) ∧
    ((0.4 : ℚ) ≤ estimate_prob_no_new_high hour ∧
      estimate_prob_no_new_high hour ≤ 0.98) := by
  refine ⟨?_, ?_, ?_⟩
  · unfold estimate_prob_reach_threshold
    split
    · norm_num
    · exact ⟨le_max_left _ _, max_le (by norm_num) (min_le_left _ _)⟩
  · intro hd
    unfold estimate_prob_reach_threshold
    rw [if_pos hd]
  · unfold estimate_prob_no_new_high
    repeat' split
    all_goals norm_num

/-- Witness for C5 at `diff = -1`, `hour = 12`. -/
theorem claim_C5_probability_bounds_witness :
    estimate_prob_reach_threshold (-1) 12 = 0.95 ∧
    (0.4 : ℚ) ≤ estimate_prob_no_new_high 12 :=
  ⟨(claim_C5_probability_bounds (-1) 12).2.1 (by norm_num),
   (claim_C5_probability_bounds (-1) 12).2.2.1⟩

/-- C10: a weather reading whose `current_temp` or `high_today` is present
but equal to 0 is treated exactly like an absent one, because
`analyze_opportunity` tests presence with `if not current_temp or not
high_today:` (truthiness): the engine reports insufficient weather data
and returns no opportunity and no order. -/
theorem claim_C10_zero_temperature_insufficient (cfg : BotConfig) (w : WeatherData)
    (md : Option MarketData) (ob : Option OrderBookResp) (hr exp : Int)
    (h : w.current_temp = some 0 ∨ w.high_today = some 0) :
    (analyze_opportunity cfg w md ob hr exp).has_opportunity = false ∧
    (analyze_opportunity cfg w md ob hr exp).order = none ∧
    (analyze_opportunity cfg w md ob hr exp).reasoning = ["Insufficient weather data"] := by
  have hcond : ¬ (truthyOptInt w.current_temp = true ∧ truthyOptInt w.high_today = true) := by
    rcases h with h | h <;> simp [h, truthyOptInt]
  unfold analyze_opportunity
  rw [if_pos hcond]
  exact ⟨rfl, rfl, rfl⟩

/-- Witness for C10: a reading of exactly 0 °F for `current_temp`. -/
theorem claim_C10_zero_temperature_insufficient_witness :
    (analyze_opportunity exampleConfig ⟨some 0, some 76⟩ exampleMarketData
      exampleOrderbook 12 0).has_opportunity = false ∧
    (analyze_opportunity exampleConfig ⟨some 0, some 76⟩ exampleMarketData
      exampleOrderbook 12 0).order = none ∧
    (analyze_opportunity exampleConfig ⟨some 0, some 76⟩ exampleMarketData
      exampleOrderbook 12 0).reasoning = ["Insufficient weather data"] :=
  claim_C10_zero_temperature_insufficient exampleConfig ⟨some 0, some 76⟩
    exampleMarketData exampleOrderbook 12 0 (Or.inl rfl)

/-- An empty title yields no extracted temperatures. -/
theorem findTemps_nil : findTemps [] = [] := rfl

/-- C8: whenever at least two temperatures are extracted and the title
contains "between" or " to ", the parser classifies the title as `range`
over the first two temperatures (low = their min, high = their max) — even
when a `gte` keyword such as "at least" is also present, because the range
rule is checked before the gte and lte rules in a fixed precedence. -/
theorem claim_C8_range_precedence (title : String) (a b : Int) (rest : List Int)
    (htemps : findTemps title.data = a :: b :: rest)
    (hbetween : containsSub (lowerStr title.data) "between".data = true ∨
      containsSub (lowerStr title.data) " to ".data = true)
    (_hgte : gteKeywords.any (fun k => containsSub (lowerStr title.data) k.data) = true) :
    parse_market_condition title = some (.range (some (min a b)) (some (max a b))) := by
  have hne : ¬ title.data = [] := by
    intro h
    rw [h, findTemps_nil] at htemps
    exact List.noConfusion htemps
  unfold parse_market_condition
  rw [if_neg hne, htemps, if_pos ⟨by simp, hbetween⟩]
  rfl

/-- Witness for C8: an ambiguous title carrying both "between"/" to " and
"at least", with two extractable temperatures. -/
theorem claim_C8_range_precedence_witness :
    parse_market_condition "Will the high be between 72Â°F and 73Â°F, or at least 75Â°F?" =
      some (.range (some 72) (some 73)) := by
  have h := claim_C8_range_precedence
    "Will the high be between 72Â°F and 73Â°F, or at least 75Â°F?" 72 73 [75]
    (by decide) (Or.inl (by decide)) (by decide)
  simpa using h

/-- C3 counterexample: the first fetch on an empty-cached instance returns
an empty (failed-degenerate) listing; the second call 50 seconds later —
well within the 300-second interval — invokes the fetch again, because the
guard tests truthiness of the cached value.  So two calls within the
interval perform two fetches, not one. -/
theorem claim_C3_counterexample :
    (get_event_markets_cached 300 (⟨[], 0⟩ : CacheState Int) 100 []).2.2 = true ∧
    (get_event_markets_cached 300
      (get_event_markets_cached 300 (⟨[], 0⟩ : CacheState Int) 100 []).2.1
      150 []).2.2 = true ∧
    (150 : Int) - 100 < 300 := by
  refine ⟨rfl, rfl, by norm_num⟩

/-- C3 (amended): every fetch stores its result wholesale — even an empty
one — with a fresh timestamp; a call within the interval returns the
stored value unchanged without fetching PROVIDED the stored value is
truthy (non-empty), and two calls within the interval trigger exactly one
fetch under that proviso; a call at or after the interval always triggers
one more fetch.  (When the stored value is empty the next call fetches
again, as the counterexample shows.)  The Open-Meteo instance always
stores a truthy dict, so for it two calls within the interval always
trigger exactly one fetch. -/
theorem claim_C3_cache_amended {α : Type} (interval now now2 : Int) (st : CacheState α)
    (fetch fetch2 : List α) (initTs : Int) (g e g2 e2 : Option ℚ) :
    (st.cached.isEmpty = true ∨ interval ≤ now - st.lastTs →
      get_event_markets_cached interval st now fetch = (fetch, ⟨fetch, now⟩, true)) ∧
    (st.cached.isEmpty = false → now - st.lastTs < interval →
      get_event_markets_cached interval st now fetch = (st.cached, st, false)) ∧
    (fetch.isEmpty = false → now2 - now < interval →
      get_event_markets_cached interval
        (get_event_markets_cached interval ⟨[], initTs⟩ now fetch).2.1 now2 fetch2 =
        (fetch, ⟨fetch, now⟩, false)) ∧
    (interval ≤ now2 - now →
      (get_event_markets_cached interval
        (get_event_markets_cached interval ⟨[], initTs⟩ now fetch).2.1 now2 fetch2).2.2 = true) ∧
    (now2 - now < interval →
      (get_open_meteo_cached true interval
        (get_open_meteo_cached true interval ⟨none, initTs⟩ now g e).2.1 now2 g2 e2).2.2 = false) := by
  have hfirst : get_event_markets_cached interval (⟨[], initTs⟩ : CacheState α) now fetch =
      (fetch, ⟨fetch, now⟩, true) := by
    unfold get_event_markets_cached
    rw [if_neg]
    simp
  refine ⟨?_, ?_, ?_, ?_, ?_⟩
  · rintro (h | h) <;> unfold get_event_markets_cached
    · rw [if_neg]
      simp [h]
    · rw [if_neg]
      intro hc
      omega
  · intro h1 h2
    unfold get_event_markets_cached
    rw [if_pos ⟨h1, h2⟩]
  · intro h1 h2
    rw [hfirst]
    unfold get_event_markets_cached
    rw [if_pos ⟨by simpa using h1, by simpa using h2⟩]
  · intro h1
    rw [hfirst]
    unfold get_event_markets_cached
    rw [if_neg]
    intro hc
    simp at hc
    omega
  · intro h1
    have hom : get_open_meteo_cached true interval (⟨none, initTs⟩ : OMState) now g e =
        (some ⟨g, e, match g, e with
            | some gv, some ev => some |gv - ev|
            | _, _ => none⟩,
          ⟨some ⟨g, e, match g, e with
            | some gv, some ev => some |gv - ev|
            | _, _ => none⟩, now⟩, true) := by
      unfold get_open_meteo_cached
      rw [if_neg (by simp), if_neg (by simp)]
    rw [hom]
    unfold get_open_meteo_cached
    rw [if_neg (by simp), if_pos ⟨by simp, by simpa using h1⟩]

/-- Witness for C3 (amended): a non-empty first fetch at t = 100 is served
from cache at t = 150 with no second fetch. -/
theorem claim_C3_cache_amended_witness :
    get_event_markets_cached 300
      (get_event_markets_cached 300 (⟨[], 0⟩ : CacheState Int) 100 [7]).2.1 150 [] =
      ([7], ⟨[7], 100⟩, false) :=
  (claim_C3_cache_amended 300 100 150 ⟨[], 0⟩ [7] [] 0 none none none none).2.2.1
    (by decide) (by norm_num)

set_option maxHeartbeats 4000000 in
/-- Structure of every `analyze_opportunity` result: either no opportunity
and no order, or an opportunity whose order carries the clamped price and
the capacity-limited size (which the final guard has checked to be
positive); and the reasoning trace is non-empty on every path. -/
theorem analyze_opportunity_structure (cfg : BotConfig) (w : WeatherData)
    (md : Option MarketData) (ob : Option OrderBookResp) (hr exp : Int) :
    ((analyze_opportunity cfg w md ob hr exp).has_opportunity = false ∧
      (analyze_opportunity cfg w md ob hr exp).order = none ∨
     (analyze_opportunity cfg w md ob hr exp).has_opportunity = true ∧
      ∃ side price,
        (analyze_opportunity cfg w md ob hr exp).order =
          some ⟨side, max 1 (min 99 (roundHalfEven price)),
            min cfg.max_order_size (max 0 (cfg.max_position - exp))⟩ ∧
        0 < min cfg.max_order_size (max 0 (cfg.max_position - exp))) ∧
    (analyze_opportunity cfg w md ob hr exp).reasoning ≠ [] := by
  have key : ∀ a : Analysis, analyze_opportunity cfg w md ob hr exp = a →
      (a.has_opportunity = false ∧ a.order = none ∨
       a.has_opportunity = true ∧
        ∃ side price,
          a.order = some ⟨side, max 1 (min 99 (roundHalfEven price)),
            min cfg.max_order_size (max 0 (cfg.max_position - exp))⟩ ∧
          0 < min cfg.max_order_size (max 0 (cfg.max_position - exp))) ∧
      a.reasoning ≠ [] := by
    intro a ha
    simp only [analyze_opportunity] at ha
    repeat' split at ha
    all_goals subst ha
    all_goals
      first
        | exact ⟨Or.inl ⟨rfl, rfl⟩, by simp⟩
        | exact ⟨Or.inr ⟨rfl, _, _, rfl, by omega⟩, by simp⟩
  exact key _ rfl

/-- C6: when the current exposure has reached `max_position` the engine
reports no opportunity and emits no order, regardless of the computed
expected value; and every emitted order is sized exactly
`min(max_order_size, max(0, max_position - current_exposure))`. -/
theorem claim_C6_position_limit_and_sizing (cfg : BotConfig) (w : WeatherData)
    (md : Option MarketData) (ob : Option OrderBookResp) (hr exp : Int) :
    (exp = cfg.max_position →
      (analyze_opportunity cfg w md ob hr exp).has_opportunity = false ∧
      (analyze_opportunity cfg w md ob hr exp).order = none) ∧
    (∀ o, (analyze_opportunity cfg w md ob hr exp).order = some o →
      o.count = min cfg.max_order_size (max 0 (cfg.max_position - exp))) := by
  obtain ⟨h, -⟩ := analyze_opportunity_structure cfg w md ob hr exp
  constructor
  · intro he
    rcases h with ⟨h1, h2⟩ | ⟨-, -, -, -, hpos⟩
    · exact ⟨h1, h2⟩
    · rw [he] at hpos
      omega
  · intro o ho
    rcases h with ⟨-, h2⟩ | ⟨-, side, price, horder, -⟩
    · simp [h2] at ho
    · rw [horder] at ho
      obtain rfl := Option.some.inj ho
      rfl

/-- Witness for C6: at exposure 20 = `max_position` the example inputs
yield no order, and at exposure 0 the emitted order's count 5 equals the
sizing formula. -/
theorem claim_C6_position_limit_and_sizing_witness :
    (analyze_opportunity exampleConfig exampleWeather exampleMarketData
      exampleOrderbook 12 20).order = none ∧
    (5 : Int) = min exampleConfig.max_order_size (max 0 (exampleConfig.max_position - 0)) := by
  constructor
  · exact ((claim_C6_position_limit_and_sizing exampleConfig exampleWeather exampleMarketData
      exampleOrderbook 12 20).1 rfl).2
  · have h := (claim_C6_position_limit_and_sizing exampleConfig exampleWeather exampleMarketData
      exampleOrderbook 12 0).2 ⟨"yes", 50, 5⟩ (by with_unfolding_all rfl)
    simpa using h

/-- C9: in every decision, `has_opportunity` holds iff an order is
present; every present order has an integer price in [1, 99] and a count
of at least 1; and the reasoning trace is non-empty on every return path. -/
theorem claim_C9_decision_invariants (cfg : BotConfig) (w : WeatherData)
    (md : Option MarketData) (ob : Option OrderBookResp) (hr exp : Int) :
    ((analyze_opportunity cfg w md ob hr exp).has_opportunity = true ↔
      (analyze_opportunity cfg w md ob hr exp).order ≠ none) ∧
    (∀ o, (analyze_opportunity cfg w md ob hr exp).order = some o →
      1 ≤ o.price ∧ o.price ≤ 99 ∧ 1 ≤ o.count) ∧
    (analyze_opportunity cfg w md ob hr exp).reasoning ≠ [] := by
  obtain ⟨h, hreason⟩ := analyze_opportunity_structure cfg w md ob hr exp
  refine ⟨?_, ?_, hreason⟩
  · rcases h with ⟨h1, h2⟩ | ⟨h1, s, p, horder, -⟩
    · rw [h1, h2]
      simp
    · rw [h1, horder]
      simp
  · intro o ho
    rcases h with ⟨-, h2⟩ | ⟨-, side, price, horder, hpos⟩
    · simp [h2] at ho
    · rw [horder] at ho
      obtain rfl := Option.some.inj ho
      refine ⟨le_max_left _ _, max_le (by norm_num) (min_le_left _ _), ?_⟩
      show (1 : Int) ≤ min cfg.max_order_size (max 0 (cfg.max_position - exp))
      omega

/-- Witness for C9: the example inputs emit the order (yes, 50, 5), whose
price and count satisfy the bounds. -/
theorem claim_C9_decision_invariants_witness :
    1 ≤ ({ side := "yes", price := 50, count := 5 } : Order).price ∧
    ({ side := "yes", price := 50, count := 5 } : Order).price ≤ 99 ∧
    1 ≤ ({ side := "yes", price := 50, count := 5 } : Order).count :=
  (claim_C9_decision_invariants exampleConfig exampleWeather exampleMarketData
    exampleOrderbook 12 0).2.1 _ (by with_unfolding_all rfl)

/-- C2 counterexample: with the series configured as `KXHIGHNY`, no
override, and both lookups failing, resolution on 2025-01-01 returns
`KXHIGHMIA-01JAN25` — not the spec's `{series}-{DDMmmYY}` form
`KXHIGHNY-01JAN25` — because `bot.py` line 152 hardcodes the `KXHIGHMIA`
prefix in the f-string instead of using the configured series. -/
theorem claim_C2_counterexample :
    resolve_market_ticker ⟨none, "KXHIGHNY"⟩ ⟨.error (), .error (), 0, 0⟩ ⟨2025, 1, 1⟩ =
      "KXHIGHMIA-01JAN25" ∧
    canonicalTickerSpec "KXHIGHNY" ⟨2025, 1, 1⟩ = "KXHIGHNY-01JAN25" ∧
    resolve_market_ticker ⟨none, "KXHIGHNY"⟩ ⟨.error (), .error (), 0, 0⟩ ⟨2025, 1, 1⟩ ≠
      canonicalTickerSpec "KXHIGHNY" ⟨2025, 1, 1⟩ :=
  ⟨rfl, rfl, by decide⟩

/-- C2 (amended): the canonical "today" ticker is always
`KXHIGHMIA-{DDMmmYY}` (two-digit day, upper-cased three-letter month
abbreviation, two-digit year) with a hardcoded prefix, regardless of the
configured series identifier; and when no override is configured and the
series lookup and the open-markets listing are both empty or failing,
`resolve_market_ticker` returns exactly that canonically formatted
ticker. -/
theorem claim_C2_hardcoded_canonical (cfg : ResolverConfig) (env : ResolverEnv) (today : PyDate)
    (hov : truthyOptStr cfg.market_ticker_override = false)
    (hser : env.seriesResult = .error () ∨
      ∃ sr, env.seriesResult = .ok sr ∧ orList sr.markets sr.series_markets = [])
    (hmk : env.marketsResult = .error () ∨
      ∃ mr, env.marketsResult = .ok mr ∧ orList mr.markets mr.data = []) :
    resolve_market_ticker cfg env today = "KXHIGHMIA-" ++ strftimeDdMmmYy today := by
  have hshT : ∀ t, seriesHasTicker env.seriesResult t = false := by
    intro t
    rcases hser with h | ⟨sr, h, he⟩
    · rw [h]
      rfl
    · rw [h]
      simp [seriesHasTicker, he]
  unfold resolve_market_ticker
  rw [if_neg (by simp [hov])]
  by_cases hst : cfg.series_ticker = ""
  · rw [if_pos hst]
    rfl
  · rw [if_neg hst, if_neg (by simp [hshT])]
    rcases hmk with h | ⟨mr, h, he⟩
    · rw [h]
      rfl
    · rw [h]
      show (match orList mr.markets mr.data with
        | [] => get_todays_market_ticker today
        | m0 :: ms =>
          match sortByTs (upcomingOf env.localOffset env.now_ts (m0 :: ms)) with
          | (_, m) :: _ => orStr m.ticker (get_todays_market_ticker today)
          | [] =>
            match m0 with
            | MEntry.dict m => orStr m.ticker (get_todays_market_ticker today)
            | MEntry.nondict => get_todays_market_ticker today) =
        "KXHIGHMIA-" ++ strftimeDdMmmYy today
      rw [he]
      rfl

/-- Witness for C2 (amended): both collaborators raising on 2026-01-26
resolves to `KXHIGHMIA-26JAN26`. -/
theorem claim_C2_hardcoded_canonical_witness :
    resolve_market_ticker ⟨none, "KXHIGHMIA"⟩ ⟨.error (), .error (), 0, 0⟩ ⟨2026, 1, 26⟩ =
      "KXHIGHMIA-" ++ strftimeDdMmmYy ⟨2026, 1, 26⟩ :=
  claim_C2_hardcoded_canonical ⟨none, "KXHIGHMIA"⟩ ⟨.error (), .error (), 0, 0⟩ ⟨2026, 1, 26⟩
    rfl (Or.inl rfl) (Or.inl rfl)

theorem insertByTs_ne_nil (x : Int × MEntryD) (l : List (Int × MEntryD)) :
    insertByTs x l ≠ [] := by
  cases l with
  | nil => simp [insertByTs]
  | cons y ys =>
    unfold insertByTs
    split <;> simp

theorem sortByTs_eq_nil {l : List (Int × MEntryD)} (h : sortByTs l = []) : l = [] := by
  cases l with
  | nil => rfl
  | cons y ys => exact absurd h (insertByTs_ne_nil _ _)

theorem sortByTs_min : ∀ (l : List (Int × MEntryD)) (x : Int × MEntryD)
    (xs : List (Int × MEntryD)), sortByTs l = x :: xs →
    x ∈ l ∧ ∀ p ∈ l, x.1 ≤ p.1 := by
  intro l
  induction l with
  | nil =>
    intro x xs h
    simp [sortByTs] at h
  | cons y ys ih =>
    intro x xs h
    have h' : insertByTs y (sortByTs ys) = x :: xs := h
    cases hs : sortByTs ys with
    | nil =>
      have hys : ys = [] := sortByTs_eq_nil hs
      rw [hs] at h'
      unfold insertByTs at h'
      obtain ⟨rfl, rfl⟩ := List.cons_eq_cons.mp h'
      subst hys
      exact ⟨List.mem_singleton_self y, by simp⟩
    | cons z zs =>
      obtain ⟨hz_mem, hz_min⟩ := ih z zs hs
      rw [hs] at h'
      unfold insertByTs at h'
      by_cases hle : y.1 ≤ z.1
      · rw [if_pos hle] at h'
        obtain ⟨rfl, -⟩ := List.cons_eq_cons.mp h'
        refine ⟨List.mem_cons_self _ _, ?_⟩
        intro p hp
        rcases List.mem_cons.mp hp with rfl | hp
        · exact le_refl _
        · exact le_trans hle (hz_min p hp)
      · rw [if_neg hle] at h'
        obtain ⟨rfl, -⟩ := List.cons_eq_cons.mp h'
        refine ⟨List.mem_cons_of_mem _ hz_mem, ?_⟩
        intro p hp
        rcases List.mem_cons.mp hp with rfl | hp
        · exact le_of_lt (lt_of_not_le hle)
        · exact hz_min p hp

theorem mem_upcomingOf {off now : Int} {l : List MEntry} {c : Int} {m : MEntryD}
    (h : (c, m) ∈ upcomingOf off now l) : MEntry.dict m ∈ l := by
  unfold upcomingOf at h
  rw [List.mem_filterMap] at h
  obtain ⟨e, he, hf⟩ := h
  cases e with
  | nondict => simp at hf
  | dict m' =>
    dsimp only at hf
    cases hc : close_ts_of off m' with
    | none =>
      rw [hc] at hf
      simp at hf
    | some c' =>
      rw [hc] at hf
      dsimp only at hf
      by_cases hge : c' ≥ now
      · rw [if_pos hge] at hf
        obtain ⟨-, rfl⟩ : c' = c ∧ m' = m := by
          have := Option.some.inj hf
          exact ⟨congrArg Prod.fst this, congrArg Prod.snd this⟩
        exact he
      · rw [if_neg hge] at hf
        simp at hf

theorem mem_respTickers {resp : MarketsResp} {m : MEntryD} {s : String}
    (hm : MEntry.dict m ∈ orList resp.markets resp.data) (ht : m.ticker = some s) :
    s ∈ respTickers resp := by
  unfold respTickers
  rw [List.mem_filterMap]
  exact ⟨MEntry.dict m, hm, by simp [ht]⟩

theorem orStr_cases (o : Option String) (d : String) :
    orStr o d = d ∨ ∃ s, o = some s ∧ orStr o d = s := by
  cases o with
  | none => exact Or.inl rfl
  | some s =>
    by_cases h : s = ""
    · exact Or.inl (by simp [orStr, h])
    · exact Or.inr ⟨s, rfl, by simp [orStr, h]⟩
theorem resolve_selects_earliest (cfg : ResolverConfig) (env : ResolverEnv) (today : PyDate)
    (resp : MarketsResp) (m0 : MEntry) (ms : List MEntry)
    (hov : truthyOptStr cfg.market_ticker_override = false)
    (hst : cfg.series_ticker ≠ "")
    (hsh : seriesHasTicker env.seriesResult (get_todays_market_ticker today) = false)
    (hmk : env.marketsResult = .ok resp)
    (horl : orList resp.markets resp.data = m0 :: ms)
    (hup : upcomingOf env.localOffset env.now_ts (m0 :: ms) ≠ []) :
    ∃ c m, (c, m) ∈ upcomingOf env.localOffset env.now_ts (m0 :: ms) ∧
      (∀ p ∈ upcomingOf env.localOffset env.now_ts (m0 :: ms), c ≤ p.1) ∧
      resolve_market_ticker cfg env today =
        orStr m.ticker (get_todays_market_ticker today) := by
  cases hs : sortByTs (upcomingOf env.localOffset env.now_ts (m0 :: ms)) with
  | nil => exact absurd (sortByTs_eq_nil hs) hup
  | cons x rest =>
    obtain ⟨hmem, hmin⟩ := sortByTs_min _ x rest hs
    refine ⟨x.1, x.2, by simpa using hmem, fun p hp => hmin p hp, ?_⟩
    unfold resolve_market_ticker
    rw [if_neg (by simp [hov]), if_neg hst, if_neg (by simp [hsh]), hmk]
    dsimp only
    rw [horl]
    dsimp only
    rw [hs]

theorem resolve_degrades (cfg : ResolverConfig) (env : ResolverEnv) (today : PyDate) :
    resolve_market_ticker cfg env today = cfg.market_ticker_override.getD "" ∨
    resolve_market_ticker cfg env today = get_todays_market_ticker today ∨
    ∃ resp, env.marketsResult = .ok resp ∧
      resolve_market_ticker cfg env today ∈ respTickers resp := by
  unfold resolve_market_ticker
  by_cases hov : truthyOptStr cfg.market_ticker_override = true
  · rw [if_pos hov]
    exact Or.inl rfl
  · rw [if_neg hov]
    by_cases hst : cfg.series_ticker = ""
    · rw [if_pos hst]
      exact Or.inr (Or.inl rfl)
    · rw [if_neg hst]
      by_cases hsh : seriesHasTicker env.seriesResult (get_todays_market_ticker today) = true
      · rw [if_pos hsh]
        exact Or.inr (Or.inl rfl)
      · rw [if_neg hsh]
        cases hmk : env.marketsResult with
        | error e =>
          dsimp only
          exact Or.inr (Or.inl rfl)
        | ok resp =>
          dsimp only
          cases horl : orList resp.markets resp.data with
          | nil =>
            dsimp only
            exact Or.inr (Or.inl rfl)
          | cons m0 ms =>
            dsimp only
            cases hs : sortByTs (upcomingOf env.localOffset env.now_ts (m0 :: ms)) with
            | cons x rest =>
              obtain ⟨hmem, -⟩ := sortByTs_min _ x rest hs
              have hm : MEntry.dict x.2 ∈ orList resp.markets resp.data := by
                rw [horl]
                exact mem_upcomingOf (by simpa using hmem)
              dsimp only
              rcases orStr_cases x.2.ticker (get_todays_market_ticker today) with h | ⟨s, hts, h⟩
              · rw [h]
                exact Or.inr (Or.inl rfl)
              · rw [h]
                exact Or.inr (Or.inr ⟨resp, rfl, mem_respTickers hm hts⟩)
            | nil =>
              dsimp only
              cases m0 with
              | dict m =>
                have hm : MEntry.dict m ∈ orList resp.markets resp.data := by
                  rw [horl]
                  exact List.mem_cons_self _ _
                dsimp only
                rcases orStr_cases m.ticker (get_todays_market_ticker today) with h | ⟨s, hts, h⟩
                · rw [h]
                  exact Or.inr (Or.inl rfl)
                · rw [h]
                  exact Or.inr (Or.inr ⟨resp, rfl, mem_respTickers hm hts⟩)
              | nondict =>
                dsimp only
                exact Or.inr (Or.inl rfl)
theorem dropWhile_eq_self_of_head (p : Char → Bool) (a : Char) (tl : List Char)
    (h : p a = false) : (a :: tl).dropWhile p = a :: tl := by
  simp [List.dropWhile, h]

theorem stripPy_eq_self_concat (a : Char) (tl : List Char) (z : Char)
    (ha : isPySpace a = false) (hz : isPySpace z = false) :
    stripPy ((a :: tl) ++ [z]) = (a :: tl) ++ [z] := by
  unfold stripPy
  have h2 : ((a :: tl) ++ [z]).reverse = z :: (a :: tl).reverse := by
    rw [List.reverse_append]
    rfl
  rw [List.cons_append, dropWhile_eq_self_of_head _ _ _ ha, ← List.cons_append, h2,
    dropWhile_eq_self_of_head _ _ _ hz, ← h2, List.reverse_reverse]

theorem parseDigits_none_of_mem (cs : List Char) (c : Char) (hc : c ∈ cs)
    (hcd : c.isDigit = false) : parseDigits cs = none := by
  have hne : cs.isEmpty = false := by
    cases cs
    · simp at hc
    · rfl
  have hall : cs.all Char.isDigit = false := by
    cases hAll : cs.all Char.isDigit
    · rfl
    · exact absurd (List.all_eq_true.mp hAll c hc) (by simp [hcd])
  simp [parseDigits, hne, hall]

theorem pyIntOfStr_none_of (s : String) (a : Char) (tl : List Char) (z : Char)
    (hdata : s.data = (a :: tl) ++ [z])
    (ha : isPySpace a = false) (hz : isPySpace z = false)
    (hm : a ≠ '-') (hp : a ≠ '+')
    (c : Char) (hc : c ∈ (a :: tl) ++ [z]) (hcd : c.isDigit = false) :
    pyIntOfStr s = none := by
  unfold pyIntOfStr
  rw [hdata, stripPy_eq_self_concat a tl z ha hz]
  have hpd : parseDigits ((a :: tl) ++ [z]) = none := parseDigits_none_of_mem _ c hc hcd
  split
  · rename_i ds heq
    rw [List.cons_append] at heq
    exact absurd (List.cons_eq_cons.mp heq).1 hm
  · rename_i ds heq
    rw [List.cons_append] at heq
    exact absurd (List.cons_eq_cons.mp heq).1 hp
  · rw [hpd]
    rfl

theorem replaceZ_cons_ne (c : Char) (cs : List Char) (h : c ≠ 'Z') :
    replaceZ (c :: cs) = c :: replaceZ cs := by
  rw [replaceZ.eq_def]
  split
  · rename_i heq
    exact List.noConfusion heq
  · rename_i cs' heq
    obtain ⟨h1, -⟩ := List.cons_eq_cons.mp heq
    exact absurd h1 h
  · rename_i c' cs' hguard heq
    obtain ⟨rfl, rfl⟩ := List.cons_eq_cons.mp heq
    rfl

theorem replaceZ_append_single (body : List Char) (h : ∀ c ∈ body, c ≠ 'Z') :
    replaceZ (body ++ [('Z' : Char)]) =
      body ++ ('+' :: '0' :: '0' :: ':' :: '0' :: '0' :: []) := by
  induction body with
  | nil => rfl
  | cons a tl ih =>
    have ha : a ≠ 'Z' := h a (List.mem_cons_self _ _)
    rw [List.cons_append, replaceZ_cons_ne a _ ha,
      ih (fun c hc => h c (List.mem_cons_of_mem _ hc)), List.cons_append]
theorem digit2_pads (n : Nat) (hn : n < 100) :
    digit2 (Nat.digitChar (n / 10 % 10)) (Nat.digitChar (n % 10)) = some n := by
  simp [digit2, digitChar_mod_isDigit, dval_digitChar_mod]
  omega

theorem digit4_pads (n : Nat) (hn : n < 10000) :
    digit4 (Nat.digitChar (n / 1000 % 10)) (Nat.digitChar (n / 100 % 10))
      (Nat.digitChar (n / 10 % 10)) (Nat.digitChar (n % 10)) = some n := by
  simp [digit4, digitChar_mod_isDigit, dval_digitChar_mod]
  omega

theorem daysInMonth_le (y m : Nat) : daysInMonth y m ≤ 31 := by
  unfold daysInMonth
  repeat' split
  all_goals omega

theorem fromisoEpoch_pads (off : Int) (y mo d h mi s : Nat)
    (hy1 : 1 ≤ y) (hy2 : y < 10000) (hmo1 : 1 ≤ mo) (hmo2 : mo ≤ 12)
    (hd1 : 1 ≤ d) (hd2 : d ≤ daysInMonth y mo) (hh : h < 24) (hmi : mi < 60) (hs : s < 60) :
    fromisoEpoch off
      (Nat.digitChar (y / 1000 % 10) :: Nat.digitChar (y / 100 % 10) ::
       Nat.digitChar (y / 10 % 10) :: Nat.digitChar (y % 10) :: '-' ::
       Nat.digitChar (mo / 10 % 10) :: Nat.digitChar (mo % 10) :: '-' ::
       Nat.digitChar (d / 10 % 10) :: Nat.digitChar (d % 10) :: 'T' ::
       Nat.digitChar (h / 10 % 10) :: Nat.digitChar (h % 10) :: ':' ::
       Nat.digitChar (mi / 10 % 10) :: Nat.digitChar (mi % 10) :: ':' ::
       Nat.digitChar (s / 10 % 10) :: Nat.digitChar (s % 10) ::
       '+' :: '0' :: '0' :: ':' :: '0' :: '0' :: []) =
      some (epochFromCivil y mo d h mi s 0) := by
  unfold fromisoEpoch
  split
  case _ y1 y2 y3 y4 m1 m2 d1 d2 rest heq =>
    have hd100 : d < 100 := by
      have := daysInMonth_le y mo
      omega
    simp only [List.cons.injEq] at heq
    obtain ⟨h1, h2, h3, h4, -, h5, h6, -, h7, h8, h9⟩ := heq
    subst h1 h2 h3 h4 h5 h6 h7 h8 h9
    rw [digit4_pads y hy2, digit2_pads mo (by omega), digit2_pads d (by omega)]
    dsimp only
    rw [if_pos ⟨hy1, hmo1, hmo2, hd1, hd2⟩]
    split
    case _ heq2 => exact List.noConfusion heq2
    case _ h1c h2c mi1 mi2 s1 s2 rest2 heq2 =>
      simp only [List.cons.injEq] at heq2
      obtain ⟨-, g1, g2, -, g3, g4, -, g5, g6, g7⟩ := heq2
      subst g1 g2 g3 g4 g5 g6 g7
      rw [digit2_pads h (by omega), digit2_pads mi (by omega), digit2_pads s (by omega)]
      dsimp only
      rw [if_pos ⟨hh, hmi, hs⟩]
      rfl
    case _ hne2 =>
      exact (hne2 _ _ _ _ _ _ _ rfl).elim
  case _ hne =>
    exact (hne _ _ _ _ _ _ _ _ _ rfl).elim
theorem parse_ts_iso (off : Int) (y mo d h mi s : Nat)
    (hy1 : 1 ≤ y) (hy2 : y < 10000) (hmo1 : 1 ≤ mo) (hmo2 : mo ≤ 12)
    (hd1 : 1 ≤ d) (hd2 : d ≤ daysInMonth y mo) (hh : h < 24) (hmi : mi < 60) (hs : s < 60) :
    parse_ts off (.str (isoUTCString y mo d h mi s)) =
      some (epochFromCivil y mo d h mi s 0) := by
  have hbody : (isoUTCString y mo d h mi s).data =
      (Nat.digitChar (y / 1000 % 10) :: Nat.digitChar (y / 100 % 10) ::
       Nat.digitChar (y / 10 % 10) :: Nat.digitChar (y % 10) :: '-' ::
       Nat.digitChar (mo / 10 % 10) :: Nat.digitChar (mo % 10) :: '-' ::
       Nat.digitChar (d / 10 % 10) :: Nat.digitChar (d % 10) :: 'T' ::
       Nat.digitChar (h / 10 % 10) :: Nat.digitChar (h % 10) :: ':' ::
       Nat.digitChar (mi / 10 % 10) :: Nat.digitChar (mi % 10) :: ':' ::
       Nat.digitChar (s / 10 % 10) :: Nat.digitChar (s % 10) :: []) ++ ['Z'] := by
    simp [isoUTCString, pad4, pad2]
  have hnz : ∀ c ∈ (Nat.digitChar (y / 1000 % 10) :: Nat.digitChar (y / 100 % 10) ::
       Nat.digitChar (y / 10 % 10) :: Nat.digitChar (y % 10) :: '-' ::
       Nat.digitChar (mo / 10 % 10) :: Nat.digitChar (mo % 10) :: '-' ::
       Nat.digitChar (d / 10 % 10) :: Nat.digitChar (d % 10) :: 'T' ::
       Nat.digitChar (h / 10 % 10) :: Nat.digitChar (h % 10) :: ':' ::
       Nat.digitChar (mi / 10 % 10) :: Nat.digitChar (mi % 10) :: ':' ::
       Nat.digitChar (s / 10 % 10) :: Nat.digitChar (s % 10) :: []), c ≠ 'Z' := by
    intro c hc
    simp only [List.mem_cons, List.not_mem_nil, or_false] at hc
    rcases hc with rfl|rfl|rfl|rfl|rfl|rfl|rfl|rfl|rfl|rfl|rfl|rfl|rfl|rfl|rfl|rfl|rfl|rfl|rfl
    all_goals first
      | exact digitChar_mod_ne_Z _
      | decide
  have hint : pyIntOfStr (isoUTCString y mo d h mi s) = none := by
    refine pyIntOfStr_none_of _ _ _ 'Z' hbody (digitChar_mod_not_space _) (by decide)
      (digitChar_mod_ne_minus _) ((digitChar_facts _ (Nat.mod_lt _ (by norm_num))).2.2.2.2.2) '-'
      (by simp) (by decide)
  have hrz : replaceZ (isoUTCString y mo d h mi s).data =
      (Nat.digitChar (y / 1000 % 10) :: Nat.digitChar (y / 100 % 10) ::
       Nat.digitChar (y / 10 % 10) :: Nat.digitChar (y % 10) :: '-' ::
       Nat.digitChar (mo / 10 % 10) :: Nat.digitChar (mo % 10) :: '-' ::
       Nat.digitChar (d / 10 % 10) :: Nat.digitChar (d % 10) :: 'T' ::
       Nat.digitChar (h / 10 % 10) :: Nat.digitChar (h % 10) :: ':' ::
       Nat.digitChar (mi / 10 % 10) :: Nat.digitChar (mi % 10) :: ':' ::
       Nat.digitChar (s / 10 % 10) :: Nat.digitChar (s % 10) :: []) ++
      ('+' :: '0' :: '0' :: ':' :: '0' :: '0' :: []) := by
    rw [hbody]
    exact replaceZ_append_single _ hnz
  unfold parse_ts
  dsimp only
  rw [hint, hrz]
  simp only [List.cons_append, List.nil_append]
  rw [fromisoEpoch_pads off y mo d h mi s hy1 hy2 hmo1 hmo2 hd1 hd2 hh hmi hs]

/-- C7: resolution never raises and degrades every failure to a best-guess
ticker, close-time parsing accepts both integer epoch-seconds and ISO-8601
strings, and among open markets with a parseable close time at or after
`now` the one with the earliest close time is selected.  Stated as: (1)
`_parse_ts` maps every integer to itself; (2) `_parse_ts` maps the
rendered ISO-8601 UTC form of any valid civil datetime to its epoch
seconds; (3) whenever resolution reaches a non-empty open-markets listing
whose `upcoming` selection is non-empty, the returned ticker belongs to an
entry of minimal close time among `upcoming`; (4) for EVERY collaborator
behaviour — exceptions (`.error`) and arbitrary payload shapes included —
the resolver returns a value: the override, the canonical today-ticker, or
a ticker taken from the payload (the embedding is total, mirroring that
every Python code path is wrapped in `try/except` returning a ticker). -/
theorem claim_C7_resolver_robustness :
    (∀ off n : Int, parse_ts off (.int n) = some n) ∧
    (∀ (off : Int) (y mo d h mi s : Nat),
      1 ≤ y → y < 10000 → 1 ≤ mo → mo ≤ 12 → 1 ≤ d → d ≤ daysInMonth y mo →
      h < 24 → mi < 60 → s < 60 →
      parse_ts off (.str (isoUTCString y mo d h mi s)) =
        some (epochFromCivil y mo d h mi s 0)) ∧
    (∀ (cfg : ResolverConfig) (env : ResolverEnv) (today : PyDate) (resp : MarketsResp)
      (m0 : MEntry) (ms : List MEntry),
      truthyOptStr cfg.market_ticker_override = false →
      cfg.series_ticker ≠ "" →
      seriesHasTicker env.seriesResult (get_todays_market_ticker today) = false →
      env.marketsResult = .ok resp →
      orList resp.markets resp.data = m0 :: ms →
      upcomingOf env.localOffset env.now_ts (m0 :: ms) ≠ [] →
      ∃ c m, (c, m) ∈ upcomingOf env.localOffset env.now_ts (m0 :: ms) ∧
        (∀ p ∈ upcomingOf env.localOffset env.now_ts (m0 :: ms), c ≤ p.1) ∧
        resolve_market_ticker cfg env today =
          orStr m.ticker (get_todays_market_ticker today)) ∧
    (∀ (cfg : ResolverConfig) (env : ResolverEnv) (today : PyDate),
      resolve_market_ticker cfg env today = cfg.market_ticker_override.getD "" ∨
      resolve_market_ticker cfg env today = get_todays_market_ticker today ∨
      ∃ resp, env.marketsResult = .ok resp ∧
        resolve_market_ticker cfg env today ∈ respTickers resp) :=
  ⟨fun _ _ => rfl,
   fun off y mo d h mi s h1 h2 h3 h4 h5 h6 h7 h8 h9 =>
     parse_ts_iso off y mo d h mi s h1 h2 h3 h4 h5 h6 h7 h8 h9,
   resolve_selects_earliest,
   resolve_degrades⟩

/-- Witness for C7: the integer 42 parses to itself; 2026-01-26T15:00:00Z
parses to its epoch; and on the example listing (close times 200 and 150,
now = 100) resolution picks the earliest-closing market `T-EARLY`. -/
theorem claim_C7_resolver_robustness_witness :
    parse_ts 0 (.int 42) = some 42 ∧
    parse_ts 0 (.str (isoUTCString 2026 1 26 15 0 0)) =
      some (epochFromCivil 2026 1 26 15 0 0 0) ∧
    resolve_market_ticker ⟨none, "KXHIGHMIA"⟩ exampleResolverEnv ⟨2026, 1, 26⟩ = "T-EARLY" := by
  refine ⟨claim_C7_resolver_robustness.1 0 42,
    claim_C7_resolver_robustness.2.1 0 2026 1 26 15 0 0 (by norm_num) (by norm_num)
      (by norm_num) (by norm_num) (by norm_num) (by decide) (by norm_num) (by norm_num)
      (by norm_num), ?_⟩
  obtain ⟨c, m, hmem, hmin, heq⟩ := claim_C7_resolver_robustness.2.2.1 ⟨none, "KXHIGHMIA"⟩
    exampleResolverEnv ⟨2026, 1, 26⟩ exampleMarketsResp (.dict exampleLateMarket)
    [.dict exampleEarlyMarket] rfl (by decide) rfl rfl rfl (by decide)
  have hup : upcomingOf 0 100 [.dict exampleLateMarket, .dict exampleEarlyMarket] =
      [(200, exampleLateMarket), (150, exampleEarlyMarket)] := by decide
  rw [show exampleResolverEnv.localOffset = 0 from rfl,
    show exampleResolverEnv.now_ts = 100 from rfl, hup] at hmem hmin
  have h150 : c ≤ 150 := hmin (150, exampleEarlyMarket) (by simp)
  rcases List.mem_cons.mp hmem with h | h
  · exfalso
    have : c = 200 := congrArg Prod.fst h
    omega
  · have hm : m = exampleEarlyMarket := by
      have := List.mem_singleton.mp h
      exact congrArg Prod.snd this
    rw [heq, hm]
    rfl

end KalshiWeather
